import Mathlib

/-!
Verification of the incremental synchronization and catalog engine of the
spotim8 repository.  The definitions below are shallow embeddings of:

* `scripts/spotify_sync.py` — the adaptive backoff multiplier and the retry
  wrapper `api_call`, the playlist reconciliation loop of
  `update_monthly_playlists`, and the checkpointed `sync_liked_songs`;
* `spotim8/client.py` — the incremental `Spotim8.sync` algorithm
  (change detection over snapshot ids, full replacement of changed
  playlists, downstream cache invalidation, metadata commit).

Machine-level details that are irrelevant to the claims (pandas frames,
progress bars, logging, OAuth) are elided; the control flow, the data
written to the local store, and the remote calls issued are modelled
faithfully, statement by statement.
-/

/-! ### Rate limiting: the adaptive backoff multiplier

`scripts/spotify_sync.py` lines 54-56 and 121-188.  The module keeps a
global `_RATE_BACKOFF_MULTIPLIER` (initially 1.0, cap `_RATE_BACKOFF_MAX =
16.0`).  After every successful call the multiplier decays:
`max(1.0, m * 0.90)`; after every retryable (rate-limit / transient)
failure it grows: `min(16.0, m * 2.0)`.  The effective inter-call delay is
`base_delay * m`.  Arithmetic is modelled over `ℚ`. -/

def RATE_BACKOFF_MAX : ℚ := 16

/-- `_RATE_BACKOFF_MULTIPLIER = min(_RATE_BACKOFF_MAX, _RATE_BACKOFF_MULTIPLIER * 2.0)`
(spotify_sync.py line 179, executed on every retryable failure). -/
def backoffOnFailure (m : ℚ) : ℚ := min RATE_BACKOFF_MAX (m * 2)

/-- `_RATE_BACKOFF_MULTIPLIER = max(1.0, _RATE_BACKOFF_MULTIPLIER * 0.90)`
(spotify_sync.py line 143, executed on every successful call). -/
def backoffOnSuccess (m : ℚ) : ℚ := max 1 (m * (9 / 10))

/-- `delay = base_delay * _RATE_BACKOFF_MULTIPLIER` (spotify_sync.py line 138). -/
def effectiveDelay (base m : ℚ) : ℚ := base * m

/-! ### The retry wrapper `api_call`

`scripts/spotify_sync.py` lines 121-188.  Each attempt either succeeds,
fails with a retryable error (HTTP 429 / Retry-After header / "rate
limit" text / `ConnectionError` / `Timeout`), or fails with any other
error.  A retryable failure sleeps and continues the loop; any other
error is re-raised immediately (line 185); falling off the loop raises
`RuntimeError(f"API call failed after {max_retries} attempts: {fn}")`
(line 188).  The behaviour of attempt `j` is an oracle `outcomes j`. -/

inductive CallOutcome (α : Type) where
  | success (v : α)
  | retryable (msg : String)
  | fatal (msg : String)
deriving DecidableEq, Repr

/-- Is this outcome one of the retryable classes (`is_rate or is_transient`,
spotify_sync.py line 168)? -/
def isRetryable {α : Type} : CallOutcome α → Bool
  | .retryable _ => true
  | _ => false

inductive ApiResult (α : Type) where
  | ok (v : α)
  | nonRetryable (msg : String) (attempt : Nat)
  | exhausted (op : String) (attempts : Nat)
deriving DecidableEq, Repr

/-- The `for attempt in range(max_retries)` loop of `api_call`; `fuel` is
the number of attempts still allowed, `attempt` the index of the current
one.  Returns the result together with the number of attempts performed. -/
def api_call_go {α : Type} (op : String) (outcomes : Nat → CallOutcome α) :
    Nat → Nat → ApiResult α × Nat
  | attempt, 0 => (.exhausted op attempt, attempt)
  | attempt, fuel + 1 =>
    match outcomes attempt with
    | .success v => (.ok v, attempt + 1)
    | .retryable _ => api_call_go op outcomes (attempt + 1) fuel
    | .fatal e => (.nonRetryable e attempt, attempt + 1)

/-- `api_call(fn, *args, max_retries=6, ...)` (spotify_sync.py line 121):
run the attempts starting at index 0. -/
def api_call {α : Type} (op : String) (outcomes : Nat → CallOutcome α)
    (max_retries : Nat) : ApiResult α × Nat :=
  api_call_go op outcomes 0 max_retries

/-! ### Claim C4: reconciled write-back (`update_monthly_playlists`)

`scripts/spotify_sync.py` lines 597-625 (the branch for an existing
playlist): `already = get_playlist_tracks(sp, pid)` (the current track
URIs of the playlist), `to_add = [u for u in uris if u not in already]`,
and if `to_add` is non-empty, `for chunk in _chunked(to_add, 50):
api_call(sp.playlist_add_items, pid, chunk)`.  No removal call exists in
the function.  Remote playlist contents are modelled as the list of
track URIs; `playlist_add_items` appends its chunk. -/

/-- `to_add = [u for u in uris if u not in already]` (spotify_sync.py line 605). -/
def toAddOf (already : List String) (uris : List String) : List String :=
  uris.filter (fun u => decide (u ∉ already))

/-- `_chunked(seq, 50)` (spotify_sync.py lines 229-232 as called on line 608):
successive slices of 50 elements. -/
def chunked : List String → List (List String)
  | [] => []
  | u :: rest => ((u :: rest).take 50) :: chunked ((u :: rest).drop 50)
termination_by l => l.length
decreasing_by simp; omega

/-- Appending each batch to the remote playlist in order
(`api_call(sp.playlist_add_items, pid, chunk)`, spotify_sync.py line 609). -/
def runAddBatches (contents : List String) (batches : List (List String)) : List String :=
  batches.foldl (fun acc b => acc ++ b) contents

/-- The per-playlist reconciliation step of `update_monthly_playlists`
(spotify_sync.py lines 603-612): returns the list of issued add batches
and the resulting remote playlist contents. -/
def ensure_present (existing : List String) (uris : List String) :
    List (List String) × List String :=
  let to_add := toAddOf existing uris
  let batches := if to_add.isEmpty then [] else chunked to_add
  (batches, runAddBatches existing batches)

/-! ### The incremental sync engine `Spotim8.sync`

`spotim8/client.py` lines 145-242.  The persisted local state consists of
the `playlist_tracks` table (absent until first written), the metadata
record (`playlist_snapshots` version map and `last_sync_utc` timestamp),
and the set of derived table files currently on disk.  The remote
environment supplies the (owned-filtered) playlist listing — pairs of
playlist id and snapshot id, in listing order — and a per-playlist item
fetch that either returns the rows of `_fetch_playlist_tracks_rows` /
`_fetch_liked_songs_rows` (each row carries `playlist_id` set to the
fetched playlist) or raises.  Snapshot ids are modelled as strings (the
listing always carries one: the Liked Songs pseudo playlist uses
`f"liked_songs_{liked_count}"`, client.py line 368).  Timestamps are
modelled as naturals. -/

/-- One row of the `playlist_tracks` table (client.py lines 263-271). -/
structure TrackRow where
  playlist_id : String
  track_id : String
  position : Nat
deriving DecidableEq, Repr

/-- The persisted local store touched by `Spotim8.sync`. -/
structure SyncState where
  playlist_tracks : Option (List TrackRow)
  snapshots : List (String × String)
  last_sync : Nat
  derived : List String
deriving DecidableEq, Repr

/-- The remote service as seen by one `sync` run. -/
structure SyncEnv where
  listing : List (String × String)
  fetch : String → Except String (List TrackRow)

/-- Sync statistics (client.py line 160; the `liked_songs` counter is
subsumed by `tracksAdded`, which counts all fetched rows, line 214). -/
structure SyncStats where
  checked : Nat
  updated : Nat
  tracksAdded : Nat
deriving DecidableEq, Repr

/-- `LIKED_SONGS_PLAYLIST_ID` (client.py line 27). -/
def LIKED_SONGS_PLAYLIST_ID : String := "__liked_songs__"

/-- `dict.get(pid)` over the insertion-ordered snapshot map; the listing
keys are unique (one row per playlist), so first match equals the Python
dict lookup. -/
def dictGet (m : List (String × String)) (p : String) : Option String :=
  match m with
  | [] => none
  | q :: rest => if q.1 = p then some q.2 else dictGet rest p

/-- Change detection (client.py lines 176-182): if `force or not
old_snapshots`, every id of `new_snapshots` is changed; otherwise the ids
whose snapshot differs from `old_snapshots.get(pid)`. -/
def changedOf (old new : List (String × String)) (force : Bool) : List String :=
  if force || old.isEmpty then new.map Prod.fst
  else (new.filter (fun pr => decide (dictGet old pr.1 ≠ some pr.2))).map Prod.fst

/-- The `playlist_tracks` base kept before appending fresh rows
(client.py lines 191-195): a fresh empty table when absent or `force`,
otherwise the stored table with every row of a changed playlist dropped. -/
def ptBase (force : Bool) (changed : List String) (st : SyncState) : List TrackRow :=
  match st.playlist_tracks with
  | none => []
  | some rows => if force then [] else rows.filter (fun r => decide (r.playlist_id ∉ changed))

/-- Fetch order (client.py lines 200-212): the Liked Songs pseudo
playlist is fetched first when changed and removed from the remaining
list; the rest keep listing order. -/
def fetchOrder (changed : List String) : List String :=
  if LIKED_SONGS_PLAYLIST_ID ∈ changed then
    LIKED_SONGS_PLAYLIST_ID :: changed.filter (fun p => decide (p ≠ LIKED_SONGS_PLAYLIST_ID))
  else changed

/-- Run the item fetches in order, recording the playlists for which a
fetch call was issued; the first raising fetch aborts the run. -/
def fetchAll (env : SyncEnv) : List String → List String × Except String (List TrackRow)
  | [] => ([], .ok [])
  | p :: ps =>
    match env.fetch p with
    | .error e => ([p], .error e)
    | .ok rows =>
      let rest := fetchAll env ps
      (p :: rest.1, rest.2.map (fun rs => rows ++ rs))

/-- The derived tables invalidated after a changed sync
(client.py line 224). -/
def derivedKeys : List String := ["tracks", "track_artists", "artists", "library_wide", "liked_songs"]

/-- `Spotim8.sync` (client.py lines 145-242), as a function of the remote
environment, the `force` flag, the current UTC timestamp and the stored
state.  Returns the state as persisted when the call returns or raises,
the list of playlists item-fetched (the issued per-collection item /
saved-tracks requests), and either the statistics or the raised error.
An error raised by an item fetch propagates before any write happens
(the table save on line 221, the invalidation loop on lines 223-228 and
the metadata save on line 237 all come after the fetch loop). -/
def Spotim8_sync (env : SyncEnv) (force : Bool) (now : Nat) (st : SyncState) :
    SyncState × List String × Except String SyncStats :=
  let new_snapshots := env.listing
  let changed := changedOf st.snapshots new_snapshots force
  let stats0 : SyncStats :=
    { checked := env.listing.length, updated := changed.length, tracksAdded := 0 }
  if changed.isEmpty then
    ({ st with snapshots := new_snapshots, last_sync := now }, [], .ok stats0)
  else
    let pt := ptBase force changed st
    let fetched := fetchAll env (fetchOrder changed)
    match fetched.2 with
    | .error e => (st, fetched.1, .error e)
    | .ok rows =>
      let st1 := if rows.isEmpty then st
        else { st with playlist_tracks := some (pt ++ rows) }
      let st2 := { st1 with derived := st1.derived.filter (fun k => decide (k ∉ derivedKeys)) }
      ({ st2 with snapshots := new_snapshots, last_sync := now },
        fetched.1, .ok { stats0 with tracksAdded := rows.length })

/-- The persisted rows of collection `c` in a (possibly absent)
`playlist_tracks` table: an absent table holds no rows. -/
def rowsFor (c : String) (t : Option (List TrackRow)) : List TrackRow :=
  (t.getD []).filter (fun r => decide (r.playlist_id = c))

/-! ### Concrete sync instances used by witnesses and counterexamples -/

/-- Remote with one playlist `A` at snapshot `v1` whose fresh item set is
empty. -/
def envAEmptyFetch : SyncEnv := { listing := [("A", "v1")], fetch := fun _ => .ok [] }

/-- Store holding a stale row for `A`, recorded snapshot `v0`. -/
def stAStale : SyncState :=
  { playlist_tracks := some [{ playlist_id := "A", track_id := "t-old", position := 0 }],
    snapshots := [("A", "v0")], last_sync := 0, derived := [] }

/-- Remote with one playlist `A` at snapshot `v1` whose fresh item set is
one row. -/
def envAOneRow : SyncEnv :=
  { listing := [("A", "v1")],
    fetch := fun p => if p = "A"
      then .ok [{ playlist_id := "A", track_id := "t-new", position := 0 }]
      else .ok [] }

/-- Store with rows for `A` (changed) and `B` (not listed), recorded
snapshot `v0` for `A`. -/
def stAB : SyncState :=
  { playlist_tracks := some
      [{ playlist_id := "A", track_id := "t-old", position := 0 },
       { playlist_id := "B", track_id := "t-keep", position := 0 }],
    snapshots := [("A", "v0")], last_sync := 0, derived := [] }

/-- Store already in sync with `envAEmptyFetch` (snapshot `v1` recorded),
holding one row and two derived tables. -/
def stAUpToDate : SyncState :=
  { playlist_tracks := some [{ playlist_id := "A", track_id := "t1", position := 0 }],
    snapshots := [("A", "v1")], last_sync := 3, derived := ["tracks", "library_wide"] }

/-- Remote with one playlist `A` whose item fetch raises. -/
def envAFailing : SyncEnv :=
  { listing := [("A", "v1")],
    fetch := fun p => if p = "A" then .error "read timeout" else .ok [] }

/-- Store holding a row for a collection `Gone` that no longer appears in
the remote listing, besides the changed `A`. -/
def stWithGone : SyncState :=
  { playlist_tracks := some
      [{ playlist_id := "Gone", track_id := "g1", position := 0 },
       { playlist_id := "A", track_id := "t1", position := 0 }],
    snapshots := [("A", "v0"), ("Gone", "gv")], last_sync := 0, derived := [] }

/-! ### The fallback resumable liked-songs fetch `sync_liked_songs`

`scripts/spotify_sync.py` lines 391-471.  The persisted state is the
checkpoint file `.liked_sync_offset` (absent or an offset) and the
`playlist_tracks.parquet` file (absent or a list of rows).  The remote
liked-songs stream is a list `L`; the page at `offset` is
`L[offset : offset + 50]` and the response has a `next` link exactly
when `offset + 50 < len(L)` (limit 50, lines 406-407).  The loop body:
break on an empty page (line 410); append the page rows; on the last
page or otherwise, advance the offset by the page length and write it to
the checkpoint (lines 424-438); stop when no `next` link remains.  After
the loop the rows are written to the parquet file: appended to the
existing table when the checkpoint file exists (which it does whenever
at least one page was fetched, lines 451-460 — the code comment assumes
"earlier pages are already in existing"), otherwise replacing the old
liked-songs rows; finally the checkpoint file is removed (lines 462-468).
Track ids are an arbitrary type with decidable equality. -/

/-- One row of the fallback parquet table (spotify_sync.py lines 416-422). -/
structure PRow (α : Type) where
  playlist_id : String
  track : α
deriving DecidableEq, Repr

/-- `LIKED_SONGS_PLAYLIST_ID` of the fallback script
(spotify_sync.py line 94; distinct from the client constant). -/
def FALLBACK_LIKED_ID : String := "liked_songs"

/-- `sp.current_user_saved_tracks(limit=50, offset=o)["items"]`. -/
def likedPage {α : Type} (L : List α) (o : Nat) : List α := (L.drop o).take 50

/-- The `while True` page loop of `sync_liked_songs`, returning the rows
collected by this run and the last offset written to the checkpoint file
(none when no checkpoint write happened, i.e. the first page was already
empty).  `fuel` bounds the iterations: every iteration either stops or
advances the offset by the non-zero page length, so `L.length + 1`
iterations always suffice (see `fetchLiked`). -/
def fetchLikedGo {α : Type} (L : List α) : Nat → Nat → List α × Option Nat
  | 0, _ => ([], none)
  | fuel + 1, o =>
    let items := likedPage L o
    if items.isEmpty then ([], none)
    else if o + 50 < L.length then
      let rest := fetchLikedGo L fuel (o + items.length)
      (items ++ rest.1,
        match rest.2 with
        | some c => some c
        | none => some (o + items.length))
    else (items, some (o + items.length))

/-- The page loop started with enough fuel for any stream length. -/
def fetchLiked {α : Type} (L : List α) (o : Nat) : List α × Option Nat :=
  fetchLikedGo L (L.length + 1) o

/-- The durable state read and written by `sync_liked_songs`. -/
structure LikedSyncState (α : Type) where
  checkpoint : Option Nat
  parquet : Option (List (PRow α))
deriving DecidableEq, Repr

/-- `sync_liked_songs(sp)` (spotify_sync.py lines 391-471) as a function
of the remote liked list and the durable state. -/
def sync_liked_songs {α : Type} (L : List α) (st : LikedSyncState α) : LikedSyncState α :=
  let offset0 := st.checkpoint.getD 0
  let out := fetchLiked L offset0
  let rows := out.1.map (fun t => PRow.mk FALLBACK_LIKED_ID t)
  let ckAfter : Option Nat :=
    match out.2 with
    | some c => some c
    | none => st.checkpoint
  let df :=
    match st.parquet with
    | none => rows
    | some existing =>
      if ckAfter.isSome then existing ++ rows
      else existing.filter (fun r => decide (r.playlist_id ≠ FALLBACK_LIKED_ID)) ++ rows
  { checkpoint := none, parquet := some df }

-- ==== marker: more definitions go above, theorems below ====

/-! ### Claims C6 and C7: backoff dynamics and retry policy -/

lemma backoffOnFailure_lt_of (m : ℚ) (h1 : 1 ≤ m) (h16 : m < 16) :
    m < backoffOnFailure m := by
  unfold backoffOnFailure RATE_BACKOFF_MAX
  rcases le_total 16 (m * 2) with h | h
  · rw [min_eq_left h]; exact h16
  · rw [min_eq_right h]; nlinarith

lemma backoffOnSuccess_lt_of (m : ℚ) (h1 : 1 < m) :
    backoffOnSuccess m < m := by
  unfold backoffOnSuccess
  rcases le_total 1 (m * (9 / 10)) with h | h
  · rw [max_eq_right h]; nlinarith
  · rw [max_eq_left h]; exact h1

/-- **C6** Backoff multiplier dynamics: a retryable failure updates the
multiplier `m` to `min(16, 2*m)` and a success updates it to
`max(1, 0.9*m)`; for any `m ≥ 1` and any positive base delay, a failure
strictly increases the effective delay `base*m` as long as the `16×` cap
is not reached and never exceeds the cap, while a success strictly
decreases the effective delay as long as `m` is above the floor `1` and
never drops below `1×` the base delay. -/
theorem backoff_multiplier_dynamics (base m : ℚ) (hb : 0 < base) (hm : 1 ≤ m) :
    backoffOnFailure m = min 16 (2 * m) ∧
    backoffOnSuccess m = max 1 ((9 / 10) * m) ∧
    (m < 16 → effectiveDelay base m < effectiveDelay base (backoffOnFailure m)) ∧
    backoffOnFailure m ≤ 16 ∧
    1 ≤ backoffOnFailure m ∧
    (1 < m → effectiveDelay base (backoffOnSuccess m) < effectiveDelay base m) ∧
    1 ≤ backoffOnSuccess m ∧
    (16 ≤ m → backoffOnFailure m = 16) := by
  refine ⟨by unfold backoffOnFailure RATE_BACKOFF_MAX; ring_nf, ?_, ?_, ?_, ?_, ?_, ?_, ?_⟩
  · unfold backoffOnSuccess; ring_nf
  · intro h16
    unfold effectiveDelay
    exact (mul_lt_mul_left hb).mpr (backoffOnFailure_lt_of m hm h16)
  · unfold backoffOnFailure RATE_BACKOFF_MAX; exact min_le_left _ _
  · unfold backoffOnFailure RATE_BACKOFF_MAX
    refine le_min (by norm_num) (by nlinarith)
  · intro h1
    unfold effectiveDelay
    exact (mul_lt_mul_left hb).mpr (backoffOnSuccess_lt_of m h1)
  · unfold backoffOnSuccess; exact le_max_left _ _
  · intro h16
    unfold backoffOnFailure RATE_BACKOFF_MAX
    rw [min_eq_left (by nlinarith)]

/-- Witness for C6 at `base = 1`, `m = 2`. -/
theorem backoff_multiplier_dynamics_witness :
    effectiveDelay 1 2 < effectiveDelay 1 (backoffOnFailure 2) ∧
    effectiveDelay 1 (backoffOnSuccess 2) < effectiveDelay 1 2 ∧
    backoffOnFailure 2 ≤ 16 ∧ 1 ≤ backoffOnSuccess 2 := by
  have h := backoff_multiplier_dynamics 1 2 (by norm_num) (by norm_num)
  exact ⟨h.2.2.1 (by norm_num), h.2.2.2.2.2.1 (by norm_num),
    h.2.2.2.1, h.2.2.2.2.2.2.1⟩

lemma api_call_go_succ {α : Type} (op : String) (outcomes : Nat → CallOutcome α)
    (attempt fuel : Nat) :
    api_call_go op outcomes attempt (fuel + 1) =
      match outcomes attempt with
      | .success v => (.ok v, attempt + 1)
      | .retryable _ => api_call_go op outcomes (attempt + 1) fuel
      | .fatal e => (.nonRetryable e attempt, attempt + 1) := rfl

lemma api_call_go_all_retryable {α : Type} (op : String)
    (outcomes : Nat → CallOutcome α) :
    ∀ (fuel attempt : Nat),
      (∀ j, j < fuel → isRetryable (outcomes (attempt + j)) = true) →
      api_call_go op outcomes attempt fuel = (.exhausted op (attempt + fuel), attempt + fuel) := by
  intro fuel
  induction fuel with
  | zero => intro attempt _; simp [api_call_go]
  | succ n ih =>
    intro attempt h
    have h0 : isRetryable (outcomes attempt) = true := by
      simpa using h 0 (Nat.succ_pos n)
    rw [api_call_go_succ]
    cases hout : outcomes attempt with
    | success v => rw [hout] at h0; simp [isRetryable] at h0
    | fatal e => rw [hout] at h0; simp [isRetryable] at h0
    | retryable m =>
      have hrec := ih (attempt + 1) (fun j hj => by
        have := h (j + 1) (Nat.succ_lt_succ hj)
        simpa [Nat.add_assoc, Nat.add_comm 1 j] using this)
      show api_call_go op outcomes (attempt + 1) n =
        (.exhausted op (attempt + (n + 1)), attempt + (n + 1))
      rw [hrec, show attempt + 1 + n = attempt + (n + 1) by omega]

lemma api_call_go_fatal {α : Type} (op : String)
    (outcomes : Nat → CallOutcome α) (e : String) :
    ∀ (i fuel attempt : Nat), i < fuel →
      (∀ j, j < i → isRetryable (outcomes (attempt + j)) = true) →
      outcomes (attempt + i) = .fatal e →
      api_call_go op outcomes attempt fuel =
        (.nonRetryable e (attempt + i), attempt + i + 1) := by
  intro i
  induction i with
  | zero =>
    intro fuel attempt hfuel _ hfatal
    have hf : outcomes attempt = .fatal e := by simpa using hfatal
    match fuel, hfuel with
    | n + 1, _ =>
      rw [api_call_go_succ, hf]
      simp
  | succ k ih =>
    intro fuel attempt hfuel h hfatal
    have h0 : isRetryable (outcomes attempt) = true := by
      simpa using h 0 (Nat.succ_pos k)
    match fuel, hfuel with
    | n + 1, hfuel =>
      rw [api_call_go_succ]
      cases hout : outcomes attempt with
      | success v => rw [hout] at h0; simp [isRetryable] at h0
      | fatal e2 => rw [hout] at h0; simp [isRetryable] at h0
      | retryable m =>
        have hrec := ih n (attempt + 1) (by omega)
          (fun j hj => by
            have := h (j + 1) (Nat.succ_lt_succ hj)
            simpa [Nat.add_assoc, Nat.add_comm 1 j] using this)
          (by rw [show attempt + 1 + k = attempt + (k + 1) by omega]; exact hfatal)
        show api_call_go op outcomes (attempt + 1) n =
          (.nonRetryable e (attempt + (k + 1)), attempt + (k + 1) + 1)
        rw [hrec, show attempt + 1 + k = attempt + (k + 1) by omega]

/-- **C7** Retry policy outcomes: if attempt `i` (with every earlier
attempt failing retryably) fails with a non-retryable error, `api_call`
propagates that error at attempt `i`, having performed exactly `i + 1`
attempts (so no further retry attempts are consumed); and if all
`max_retries` attempts fail retryably, the result is the fatal
`exhausted` error carrying the operation name and the attempt count
(mirroring `RuntimeError(f"API call failed after {max_retries} attempts: {fn}")`). -/
theorem api_call_retry_policy {α : Type} (op : String)
    (outcomes : Nat → CallOutcome α) (max_retries i : Nat) (e : String) :
    ((∀ j, j < i → isRetryable (outcomes j) = true) → outcomes i = .fatal e →
      i < max_retries →
      api_call op outcomes max_retries = (.nonRetryable e i, i + 1)) ∧
    ((∀ j, j < max_retries → isRetryable (outcomes j) = true) →
      api_call op outcomes max_retries = (.exhausted op max_retries, max_retries)) := by
  constructor
  · intro hpre hfatal hlt
    unfold api_call
    have := api_call_go_fatal op outcomes e i max_retries 0 hlt
      (fun j hj => by simpa using hpre j hj) (by simpa using hfatal)
    simpa using this
  · intro hall
    unfold api_call
    have := api_call_go_all_retryable op outcomes max_retries 0
      (fun j hj => by simpa using hall j hj)
    simpa using this

/-- Witness for C7: attempt 0 is retryable, attempt 1 fails with an
authorization-style error; with `max_retries = 6` the error propagates at
attempt 1 after exactly 2 attempts.  A second oracle that always rate
limits exhausts all 6 attempts. -/
theorem api_call_retry_policy_witness :
    api_call "playlist_items"
        (fun j => if j = 0 then CallOutcome.retryable "429" else (CallOutcome.fatal "401" : CallOutcome Nat))
        6 = (ApiResult.nonRetryable "401" 1, 2) ∧
    api_call "playlist_items" (fun _ => (CallOutcome.retryable "429" : CallOutcome Nat))
        6 = (ApiResult.exhausted "playlist_items" 6, 6) := by
  constructor
  · exact (api_call_retry_policy "playlist_items"
      (fun j => if j = 0 then CallOutcome.retryable "429" else (CallOutcome.fatal "401" : CallOutcome Nat))
      6 1 "401").1 (by decide) (by decide) (by decide)
  · exact (api_call_retry_policy "playlist_items"
      (fun _ => (CallOutcome.retryable "429" : CallOutcome Nat)) 6 0 "x").2 (by decide)

lemma chunked_join (l : List String) : (chunked l).flatten = l := by
  induction l using chunked.induct with
  | case1 => simp [chunked]
  | case2 u rest ih =>
    rw [chunked]
    simp only [List.flatten_cons, ih, List.take_append_drop]

lemma chunked_length_le (l : List String) :
    ∀ b ∈ chunked l, b.length ≤ 50 := by
  induction l using chunked.induct with
  | case1 => simp [chunked]
  | case2 u rest ih =>
    rw [chunked]
    intro b hb
    rcases List.mem_cons.mp hb with h | h
    · subst h; simp
    · exact ih b h

lemma runAddBatches_eq (contents : List String) (batches : List (List String)) :
    runAddBatches contents batches = contents ++ batches.flatten := by
  induction batches generalizing contents with
  | nil => simp [runAddBatches]
  | cons b bs ih =>
    simp only [runAddBatches, List.foldl_cons, List.flatten_cons]
    rw [show List.foldl (fun acc b => acc ++ b) (contents ++ b) bs =
      runAddBatches (contents ++ b) bs from rfl, ih, List.append_assoc]

lemma ensure_present_batches_join (existing uris : List String) :
    (ensure_present existing uris).1.flatten = toAddOf existing uris := by
  unfold ensure_present
  by_cases h : (toAddOf existing uris).isEmpty
  · simp [h, List.isEmpty_iff.mp h]
  · simp [h, chunked_join]

/-- **C4** Reconciled write-back: for any existing remote contents and any
desired URI list, the writer adds exactly the URIs that are desired and
not already present, every add batch has at most 50 items, the resulting
contents retain every pre-existing item (no removal), and immediately
re-running with the same desired list issues zero additions. -/
theorem ensure_present_reconciles (existing uris : List String) :
    (∀ u, u ∈ (ensure_present existing uris).1.flatten ↔ (u ∈ uris ∧ u ∉ existing)) ∧
    (∀ b, b ∈ (ensure_present existing uris).1 → b.length ≤ 50) ∧
    (∀ u, u ∈ existing → u ∈ (ensure_present existing uris).2) ∧
    (ensure_present (ensure_present existing uris).2 uris).1.flatten = [] := by
  have hjoin := ensure_present_batches_join existing uris
  have hsnd : (ensure_present existing uris).2 = existing ++ toAddOf existing uris := by
    unfold ensure_present
    by_cases h : (toAddOf existing uris).isEmpty
    · simp [h, runAddBatches_eq, List.isEmpty_iff.mp h]
    · simp [h, runAddBatches_eq, chunked_join]
  refine ⟨?_, ?_, ?_, ?_⟩
  · intro u
    rw [hjoin]
    simp [toAddOf]
  · intro b hb
    have : (ensure_present existing uris).1 = [] ∨
        (ensure_present existing uris).1 = chunked (toAddOf existing uris) := by
      unfold ensure_present
      by_cases h : (toAddOf existing uris).isEmpty <;> simp [h]
    rcases this with h | h
    · rw [h] at hb; simp at hb
    · rw [h] at hb; exact chunked_length_le _ b hb
  · intro u hu
    rw [hsnd]
    exact List.mem_append_left _ hu
  · rw [ensure_present_batches_join]
    have hempty : toAddOf (ensure_present existing uris).2 uris = [] := by
      rw [hsnd]
      unfold toAddOf
      rw [List.filter_eq_nil_iff]
      intro u hu
      simp only [decide_eq_true_eq, not_not, List.mem_append]
      by_cases hex : u ∈ existing
      · exact Or.inl hex
      · exact Or.inr (by simp [toAddOf, hu, hex])
    exact hempty

/-- Witness for C4, the non-destructive scenario of the specification:
existing remote contents `{t1, t3, t4}` (t4 externally added), desired
`{t1, t2, t3}`; exactly `t2` is added and `t4` survives, and a second
run adds nothing. -/
theorem ensure_present_reconciles_witness :
    ("t2" ∈ (ensure_present ["t1", "t3", "t4"] ["t1", "t2", "t3"]).1.flatten) ∧
    ("t1" ∉ (ensure_present ["t1", "t3", "t4"] ["t1", "t2", "t3"]).1.flatten) ∧
    ("t4" ∈ (ensure_present ["t1", "t3", "t4"] ["t1", "t2", "t3"]).2) ∧
    (ensure_present (ensure_present ["t1", "t3", "t4"] ["t1", "t2", "t3"]).2
      ["t1", "t2", "t3"]).1.flatten = [] := by
  have h := ensure_present_reconciles ["t1", "t3", "t4"] ["t1", "t2", "t3"]
  exact ⟨(h.1 "t2").mpr ⟨by decide, by decide⟩,
    fun hmem => absurd ((h.1 "t1").mp hmem).2 (by decide),
    h.2.2.1 "t4" (by decide), h.2.2.2⟩


/-! ### Claim C1: change detection -/

/-- **C1** Change detection: if `force` is set or the old version map is
empty, the changed list is all ids of the new version map; otherwise a
playlist id is changed exactly when it occurs in the new map with a
snapshot different from `old.get(id)` — in particular an id absent from
the old map is changed. -/
theorem sync_change_detection (old new : List (String × String)) (force : Bool) :
    ((force = true ∨ old = []) → changedOf old new force = new.map Prod.fst) ∧
    (force = false → old ≠ [] →
      (∀ p, p ∈ changedOf old new force ↔ ∃ s, (p, s) ∈ new ∧ dictGet old p ≠ some s) ∧
      (∀ p s, (p, s) ∈ new → dictGet old p = none → p ∈ changedOf old new force)) := by
  constructor
  · rintro (h | h)
    · simp [changedOf, h]
    · simp [changedOf, h]
  · intro hf hne
    have hcond : (force || old.isEmpty) = false := by
      rw [hf]
      simpa [List.isEmpty_iff] using hne
    have hmem : ∀ p, p ∈ changedOf old new force ↔
        ∃ s, (p, s) ∈ new ∧ dictGet old p ≠ some s := by
      intro p
      unfold changedOf
      rw [hcond]
      simp only [Bool.false_eq_true, if_false, List.mem_map, List.mem_filter,
        decide_eq_true_eq]
      constructor
      · rintro ⟨⟨q, s⟩, ⟨hq, hd⟩, rfl⟩
        exact ⟨s, hq, hd⟩
      · rintro ⟨s, hq, hd⟩
        exact ⟨(p, s), ⟨hq, hd⟩, rfl⟩
    refine ⟨hmem, ?_⟩
    intro p s hps hnone
    exact (hmem p).mpr ⟨s, hps, by rw [hnone]; exact fun h => Option.noConfusion h⟩

/-- Witness for C1, the scenario of the specification: previous sync
recorded `{A: v1, B: v0}`, the listing returns `[A(v1), B(v1)]`, and with
`force=false` exactly `B` is re-fetched. -/
theorem sync_change_detection_witness :
    "B" ∈ changedOf [("A", "v1"), ("B", "v0")] [("A", "v1"), ("B", "v1")] false :=
  (((sync_change_detection [("A", "v1"), ("B", "v0")] [("A", "v1"), ("B", "v1")]
    false).2 rfl (by decide)).1 "B").mpr ⟨"v1", by decide, by decide⟩

/-! ### Structural lemmas about `Spotim8_sync` -/

lemma changedOf_subset (old new : List (String × String)) (force : Bool) :
    ∀ p, p ∈ changedOf old new force → p ∈ new.map Prod.fst := by
  intro p hp
  unfold changedOf at hp
  by_cases h : (force || old.isEmpty) = true
  · rw [if_pos h] at hp; exact hp
  · rw [if_neg h] at hp
    obtain ⟨pr, hpr, rfl⟩ := List.mem_map.mp hp
    exact List.mem_map.mpr ⟨pr, List.mem_of_mem_filter hpr, rfl⟩

lemma changedOf_nodup (old new : List (String × String)) (force : Bool)
    (h : (new.map Prod.fst).Nodup) : (changedOf old new force).Nodup := by
  unfold changedOf
  by_cases hc : (force || old.isEmpty) = true
  · rw [if_pos hc]; exact h
  · rw [if_neg hc]
    exact h.sublist (List.Sublist.map Prod.fst (List.filter_sublist new))

lemma mem_fetchOrder (changed : List String) (p : String) :
    p ∈ fetchOrder changed ↔ p ∈ changed := by
  unfold fetchOrder
  by_cases h : LIKED_SONGS_PLAYLIST_ID ∈ changed
  · rw [if_pos h]
    simp only [List.mem_cons, List.mem_filter, decide_eq_true_eq]
    constructor
    · rintro (rfl | ⟨hp, _⟩)
      · exact h
      · exact hp
    · intro hp
      by_cases hpl : p = LIKED_SONGS_PLAYLIST_ID
      · exact Or.inl hpl
      · exact Or.inr ⟨hp, hpl⟩
  · rw [if_neg h]

lemma fetchOrder_nodup (changed : List String) (h : changed.Nodup) :
    (fetchOrder changed).Nodup := by
  unfold fetchOrder
  by_cases hc : LIKED_SONGS_PLAYLIST_ID ∈ changed
  · rw [if_pos hc]
    refine List.nodup_cons.mpr ⟨?_, h.filter _⟩
    intro hmem
    have := (List.mem_filter.mp hmem).2
    simp at this
  · rw [if_neg hc]; exact h

lemma fetchOrder_ne_nil_of_mem (changed : List String) (p : String)
    (hp : p ∈ fetchOrder changed) : changed ≠ [] := by
  intro h0
  rw [h0] at hp
  simp [fetchOrder] at hp

lemma Spotim8_sync_empty (env : SyncEnv) (force : Bool) (now : Nat) (st : SyncState)
    (h : changedOf st.snapshots env.listing force = []) :
    Spotim8_sync env force now st =
      ({ st with snapshots := env.listing, last_sync := now }, [],
        .ok { checked := env.listing.length, updated := 0, tracksAdded := 0 }) := by
  simp [Spotim8_sync, h]

lemma Spotim8_sync_error (env : SyncEnv) (force : Bool) (now : Nat) (st : SyncState)
    (e : String) (tr : List String)
    (hne : changedOf st.snapshots env.listing force ≠ [])
    (herr : fetchAll env (fetchOrder (changedOf st.snapshots env.listing force)) =
      (tr, .error e)) :
    Spotim8_sync env force now st = (st, tr, .error e) := by
  have hie : (changedOf st.snapshots env.listing force).isEmpty = false := by
    simpa [List.isEmpty_iff] using hne
  simp [Spotim8_sync, hie, herr]

lemma Spotim8_sync_ok (env : SyncEnv) (force : Bool) (now : Nat) (st : SyncState)
    (rows : List TrackRow) (tr : List String)
    (hne : changedOf st.snapshots env.listing force ≠ [])
    (hok : fetchAll env (fetchOrder (changedOf st.snapshots env.listing force)) =
      (tr, .ok rows)) :
    Spotim8_sync env force now st =
      ({ playlist_tracks :=
           if rows.isEmpty then st.playlist_tracks
           else some (ptBase force (changedOf st.snapshots env.listing force) st ++ rows),
         snapshots := env.listing,
         last_sync := now,
         derived := st.derived.filter (fun k => decide (k ∉ derivedKeys)) },
       tr,
       .ok { checked := env.listing.length,
             updated := (changedOf st.snapshots env.listing force).length,
             tracksAdded := rows.length }) := by
  have hie : (changedOf st.snapshots env.listing force).isEmpty = false := by
    simpa [List.isEmpty_iff] using hne
  by_cases hr : rows.isEmpty
  · simp [Spotim8_sync, hie, hok, hr]
  · simp [Spotim8_sync, hie, hok, hr]

lemma fetchAll_error_of_mem (env : SyncEnv) :
    ∀ (l : List String) (p e : String), p ∈ l → env.fetch p = .error e →
      ∃ e2, (fetchAll env l).2 = .error e2 := by
  intro l
  induction l with
  | nil => intro p e h; simp at h
  | cons q ps ih =>
    intro p e hmem hfail
    cases hq : env.fetch q with
    | error e3 => exact ⟨e3, by simp [fetchAll, hq]⟩
    | ok rows =>
      rcases List.mem_cons.mp hmem with rfl | hp
      · rw [hq] at hfail; exact absurd hfail (by simp)
      · obtain ⟨e2, h2⟩ := ih p e hp hfail
        refine ⟨e2, ?_⟩
        simp only [fetchAll, hq]
        rw [h2]
        rfl

lemma fetchAll_snd_ok_mem (env : SyncEnv)
    (hwf : ∀ p rows, env.fetch p = .ok rows → ∀ r ∈ rows, r.playlist_id = p) :
    ∀ (l : List String) (rows : List TrackRow), (fetchAll env l).2 = .ok rows →
      ∀ r ∈ rows, r.playlist_id ∈ l := by
  intro l
  induction l with
  | nil =>
    intro rows h r hr
    simp only [fetchAll] at h
    cases h
    simp at hr
  | cons q ps ih =>
    intro rows h r hr
    cases hq : env.fetch q with
    | error e => simp [fetchAll, hq] at h
    | ok rows0 =>
      simp only [fetchAll, hq] at h
      cases hrest : (fetchAll env ps).2 with
      | error e => rw [hrest] at h; exact absurd h (by simp [Except.map])
      | ok rs =>
        rw [hrest] at h
        simp only [Except.map, Except.ok.injEq] at h
        subst h
        rcases List.mem_append.mp hr with h0 | h1
        · exact List.mem_cons.mpr (Or.inl (hwf q rows0 hq r h0))
        · exact List.mem_cons.mpr (Or.inr (ih rs hrest r h1))

lemma fetchAll_snd_ok_filter_nmem (env : SyncEnv)
    (hwf : ∀ p rows, env.fetch p = .ok rows → ∀ r ∈ rows, r.playlist_id = p)
    (l : List String) (rows : List TrackRow) (h : (fetchAll env l).2 = .ok rows)
    (c : String) (hc : c ∉ l) :
    rows.filter (fun r => decide (r.playlist_id = c)) = [] := by
  rw [List.filter_eq_nil_iff]
  intro r hr
  have := fetchAll_snd_ok_mem env hwf l rows h r hr
  simp only [decide_eq_true_eq]
  intro heq
  rw [heq] at this
  exact hc this

lemma fetchAll_snd_ok_filter_eq (env : SyncEnv)
    (hwf : ∀ p rows, env.fetch p = .ok rows → ∀ r ∈ rows, r.playlist_id = p) :
    ∀ (l : List String), l.Nodup → ∀ (c : String) (rcs rows : List TrackRow),
      c ∈ l → env.fetch c = .ok rcs → (fetchAll env l).2 = .ok rows →
      rows.filter (fun r => decide (r.playlist_id = c)) = rcs := by
  intro l
  induction l with
  | nil => intro _ c rcs rows hc; simp at hc
  | cons q ps ih =>
    intro hnd c rcs rows hc hfetch h
    cases hq : env.fetch q with
    | error e => simp [fetchAll, hq] at h
    | ok rows0 =>
      simp only [fetchAll, hq] at h
      cases hrest : (fetchAll env ps).2 with
      | error e => rw [hrest] at h; exact absurd h (by simp [Except.map])
      | ok rs =>
        rw [hrest] at h
        simp only [Except.map, Except.ok.injEq] at h
        subst h
        rw [List.filter_append]
        rcases List.mem_cons.mp hc with rfl | hcp
        · have h0 : rows0 = rcs := by
            rw [hq] at hfetch; exact Except.ok.inj hfetch
          subst h0
          have hfull : rows0.filter (fun r => decide (r.playlist_id = c)) = rows0 := by
            rw [List.filter_eq_self]
            intro r hr
            simp [hwf c rows0 hq r hr]
          have hnil : rs.filter (fun r => decide (r.playlist_id = c)) = [] :=
            fetchAll_snd_ok_filter_nmem env hwf ps rs hrest c
              (List.nodup_cons.mp hnd).1
          rw [hfull, hnil, List.append_nil]
        · have hnq : c ≠ q := by
            rintro rfl
            exact (List.nodup_cons.mp hnd).1 hcp
          have h0 : rows0.filter (fun r => decide (r.playlist_id = c)) = [] := by
            rw [List.filter_eq_nil_iff]
            intro r hr
            simp only [decide_eq_true_eq, hwf q rows0 hq r hr]
            exact fun hqc => hnq hqc.symm
          rw [h0, List.nil_append]
          exact ih (List.nodup_cons.mp hnd).2 c rcs rs hcp hfetch hrest

lemma filter_pt_not_changed (rows0 : List TrackRow) (changed : List String) (c : String)
    (hc : c ∉ changed) :
    (rows0.filter (fun r => decide (r.playlist_id ∉ changed))).filter
      (fun r => decide (r.playlist_id = c)) =
    rows0.filter (fun r => decide (r.playlist_id = c)) := by
  induction rows0 with
  | nil => rfl
  | cons r rs ih =>
    by_cases h2 : r.playlist_id ∉ changed
    · rw [List.filter_cons_of_pos (by simpa using h2)]
      by_cases h1 : r.playlist_id = c
      · rw [List.filter_cons_of_pos (by simpa using h1),
          List.filter_cons_of_pos (by simpa using h1), ih]
      · rw [List.filter_cons_of_neg (by simpa using h1),
          List.filter_cons_of_neg (by simpa using h1), ih]
    · have h1 : ¬ r.playlist_id = c := by
        intro heq
        exact hc (heq ▸ (not_not.mp h2))
      rw [List.filter_cons_of_neg (by simpa using h2),
        List.filter_cons_of_neg (by simpa using h1)]
      exact ih

lemma ptBase_filter_changed (force : Bool) (changed : List String) (st : SyncState)
    (c : String) (hc : c ∈ changed) :
    (ptBase force changed st).filter (fun r => decide (r.playlist_id = c)) = [] := by
  rw [List.filter_eq_nil_iff]
  intro r hr
  simp only [decide_eq_true_eq]
  intro heq
  unfold ptBase at hr
  cases hpt : st.playlist_tracks with
  | none => rw [hpt] at hr; simp at hr
  | some rows0 =>
    rw [hpt] at hr
    cases force with
    | true => simp at hr
    | false =>
      simp only [Bool.false_eq_true, if_false] at hr
      have h2 := (List.mem_filter.mp hr).2
      simp only [decide_eq_true_eq] at h2
      exact h2 (by rw [heq]; exact hc)

/-! ### Claim C3: idempotent no-op -/

/-- **C3** Idempotent no-op: when `force=false`, the stored version map is
non-empty and every listed playlist carries the snapshot already recorded,
`sync` issues no item-fetch call at all (no per-playlist item request and
no saved-tracks page request — the fetched-playlists trace is empty) and
the persisted `playlist_tracks` table is exactly the one stored before. -/
theorem sync_idempotent_noop (env : SyncEnv) (now : Nat) (st : SyncState)
    (hne : st.snapshots ≠ [])
    (hagree : ∀ p s, (p, s) ∈ env.listing → dictGet st.snapshots p = some s) :
    (Spotim8_sync env false now st).2.1 = [] ∧
    (Spotim8_sync env false now st).1.playlist_tracks = st.playlist_tracks := by
  have hchanged : changedOf st.snapshots env.listing false = [] := by
    unfold changedOf
    have hcond : (false || st.snapshots.isEmpty) = false := by
      simpa [List.isEmpty_iff] using hne
    rw [hcond]
    simp only [Bool.false_eq_true, if_false]
    rw [List.map_eq_nil_iff, List.filter_eq_nil_iff]
    intro pr hpr
    simp [hagree pr.1 pr.2 hpr]
  rw [Spotim8_sync_empty env false now st hchanged]
  exact ⟨rfl, rfl⟩

/-- Witness for C3: store in sync with the remote (snapshot `v1` recorded
for the single playlist `A`); the run fetches nothing and keeps the table. -/
theorem sync_idempotent_noop_witness :
    (Spotim8_sync envAEmptyFetch false 5 stAUpToDate).2.1 = [] ∧
    (Spotim8_sync envAEmptyFetch false 5 stAUpToDate).1.playlist_tracks =
      stAUpToDate.playlist_tracks :=
  sync_idempotent_noop envAEmptyFetch 5 stAUpToDate (by decide)
    (by
      intro p s h
      have hh : p = "A" ∧ s = "v1" := by simpa [envAEmptyFetch] using h
      obtain ⟨h1, h2⟩ := hh
      subst h1; subst h2
      decide)

/-! ### Claim C9: the no-op path -/

/-- Counterexample to C9 as stated: in a no-op run (empty changed set,
`force=false`) the dependent tables `tracks` and `library_wide` are NOT
invalidated — they remain on disk unchanged — while the version map and
timestamp are still persisted.  The invalidation loop of client.py lines
223-228 sits inside the `if changed:` branch and is skipped entirely. -/
theorem sync_noop_invalidation_cx :
    changedOf stAUpToDate.snapshots envAEmptyFetch.listing false = [] ∧
    (Spotim8_sync envAEmptyFetch false 5 stAUpToDate).1.derived =
      ["tracks", "library_wide"] ∧
    (Spotim8_sync envAEmptyFetch false 5 stAUpToDate).1.snapshots = [("A", "v1")] ∧
    (Spotim8_sync envAEmptyFetch false 5 stAUpToDate).1.last_sync = 5 := by
  exact ⟨by decide, rfl, rfl, rfl⟩

/-- **C9 amended** When the computed changed set is empty (`force=false`),
`sync` performs no item fetch and no invalidation — every derived table
and the item table are left untouched — and still persists the new
version map and the sync timestamp to the metadata record. -/
theorem sync_noop_path (env : SyncEnv) (now : Nat) (st : SyncState)
    (h : changedOf st.snapshots env.listing false = []) :
    (Spotim8_sync env false now st).1.derived = st.derived ∧
    (Spotim8_sync env false now st).1.playlist_tracks = st.playlist_tracks ∧
    (Spotim8_sync env false now st).1.snapshots = env.listing ∧
    (Spotim8_sync env false now st).1.last_sync = now ∧
    (Spotim8_sync env false now st).2.1 = [] := by
  rw [Spotim8_sync_empty env false now st h]
  exact ⟨rfl, rfl, rfl, rfl, rfl⟩

/-- Witness for the amended C9. -/
theorem sync_noop_path_witness :
    (Spotim8_sync envAEmptyFetch false 5 stAUpToDate).1.derived =
      stAUpToDate.derived ∧
    (Spotim8_sync envAEmptyFetch false 5 stAUpToDate).1.playlist_tracks =
      stAUpToDate.playlist_tracks ∧
    (Spotim8_sync envAEmptyFetch false 5 stAUpToDate).1.snapshots =
      envAEmptyFetch.listing ∧
    (Spotim8_sync envAEmptyFetch false 5 stAUpToDate).1.last_sync = 5 ∧
    (Spotim8_sync envAEmptyFetch false 5 stAUpToDate).2.1 = [] :=
  sync_noop_path envAEmptyFetch 5 stAUpToDate (by decide)

/-! ### Claim C8: abort atomicity -/

/-- **C8** Sync abort atomicity: if the item fetch of any playlist in the
fetch order raises, the whole `sync` call raises and the persisted state
— in particular the version map and the last-sync timestamp of the
metadata record, and also the item table and the derived tables — is
exactly the state before the run; no partial metadata commit occurs. -/
theorem sync_abort_atomicity (env : SyncEnv) (force : Bool) (now : Nat) (st : SyncState)
    (p e : String)
    (hp : p ∈ fetchOrder (changedOf st.snapshots env.listing force))
    (hfail : env.fetch p = .error e) :
    (∃ e2, (Spotim8_sync env force now st).2.2 = .error e2) ∧
    (Spotim8_sync env force now st).1 = st := by
  have hne := fetchOrder_ne_nil_of_mem _ p hp
  obtain ⟨e2, h2⟩ := fetchAll_error_of_mem env _ p e hp hfail
  have h3 : fetchAll env (fetchOrder (changedOf st.snapshots env.listing force)) =
      ((fetchAll env (fetchOrder (changedOf st.snapshots env.listing force))).1,
        .error e2) := by
    rw [← h2]
  rw [Spotim8_sync_error env force now st e2 _ hne h3]
  exact ⟨⟨e2, rfl⟩, rfl⟩

/-- Witness for C8: the single changed playlist `A` fails to fetch; the
stored state survives unchanged. -/
theorem sync_abort_atomicity_witness :
    (∃ e2, (Spotim8_sync envAFailing false 7 stAStale).2.2 = .error e2) ∧
    (Spotim8_sync envAFailing false 7 stAStale).1 = stAStale :=
  sync_abort_atomicity envAFailing false 7 stAStale "A" "read timeout"
    (by decide) (by rfl)

/-! ### Claim C10: vanished collections keep their rows -/

/-- **C10** Vanished collections leave stale rows: with `force=false`, the
changed set is a subset of the ids of the new listing, and the persisted
rows of any collection absent from the listing are exactly the rows it
had before the run — whether the run is a no-op, aborts, skips the save,
or rewrites the table, no operation deletes them. -/
theorem sync_vanished_rows_retained (env : SyncEnv) (now : Nat) (st : SyncState)
    (hwf : ∀ p rows, env.fetch p = .ok rows → ∀ r ∈ rows, r.playlist_id = p)
    (c : String) (hc : c ∉ env.listing.map Prod.fst) :
    (∀ p, p ∈ changedOf st.snapshots env.listing false → p ∈ env.listing.map Prod.fst) ∧
    rowsFor c (Spotim8_sync env false now st).1.playlist_tracks =
      rowsFor c st.playlist_tracks := by
  refine ⟨changedOf_subset _ _ _, ?_⟩
  have hcnotin : c ∉ changedOf st.snapshots env.listing false :=
    fun h => hc (changedOf_subset _ _ _ c h)
  by_cases hempty : changedOf st.snapshots env.listing false = []
  · rw [Spotim8_sync_empty env false now st hempty]
  · cases hfa : (fetchAll env (fetchOrder (changedOf st.snapshots env.listing false))).2 with
    | error e =>
      rw [Spotim8_sync_error env false now st e
        (fetchAll env (fetchOrder (changedOf st.snapshots env.listing false))).1
        hempty (by rw [← hfa])]
    | ok rows =>
      rw [Spotim8_sync_ok env false now st rows
        (fetchAll env (fetchOrder (changedOf st.snapshots env.listing false))).1
        hempty (by rw [← hfa])]
      by_cases hrows : rows.isEmpty
      · simp only [hrows, if_true]
      · simp only [hrows, Bool.false_eq_true, if_false]
        show ((ptBase false (changedOf st.snapshots env.listing false) st ++
            rows).filter (fun r => decide (r.playlist_id = c))) =
          rowsFor c st.playlist_tracks
        rw [List.filter_append,
          fetchAll_snd_ok_filter_nmem env hwf _ rows hfa c
            (fun hm => hcnotin ((mem_fetchOrder _ c).mp hm)),
          List.append_nil]
        unfold ptBase rowsFor
        cases hpt : st.playlist_tracks with
        | none => rfl
        | some rows0 =>
          simp only [Bool.false_eq_true, if_false, Option.getD_some]
          exact filter_pt_not_changed rows0 _ c hcnotin

lemma envAOneRow_wf :
    ∀ p rows, envAOneRow.fetch p = .ok rows → ∀ r ∈ rows, r.playlist_id = p := by
  intro p rows h r hr
  by_cases hp : p = "A"
  · subst hp
    have hrows : rows = [{ playlist_id := "A", track_id := "t-new", position := 0 }] := by
      have h2 := h
      simp only [envAOneRow, if_pos rfl] at h2
      exact (Except.ok.inj h2).symm
    subst hrows
    have : r = { playlist_id := "A", track_id := "t-new", position := 0 } := by
      simpa using hr
    rw [this]
  · have h2 := h
    simp only [envAOneRow, if_neg hp] at h2
    have hrows : rows = [] := (Except.ok.inj h2).symm
    subst hrows
    simp at hr

/-- Witness for C10: the store holds a row for the collection `Gone`
which no longer appears in the listing; after a changed sync that
rewrites the table, the `Gone` row is still there. -/
theorem sync_vanished_rows_retained_witness :
    (∀ p, p ∈ changedOf stWithGone.snapshots envAOneRow.listing false →
      p ∈ envAOneRow.listing.map Prod.fst) ∧
    rowsFor "Gone" (Spotim8_sync envAOneRow false 9 stWithGone).1.playlist_tracks =
      rowsFor "Gone" stWithGone.playlist_tracks :=
  sync_vanished_rows_retained envAOneRow 9 stWithGone envAOneRow_wf "Gone" (by decide)

/-! ### Claim C2: full replacement of changed collections -/

/-- Counterexample to C2 as stated: playlist `A` changed (`v0` → `v1`)
and its freshly fetched item set is empty; the run completes with
`tracks_added = 0`, so the guarded save (`if rows:` at client.py line
216) is skipped and the stale row of `A` survives in the persisted
table, instead of being replaced by the empty fresh set. -/
theorem sync_full_replace_cx :
    "A" ∈ changedOf stAStale.snapshots envAEmptyFetch.listing false ∧
    envAEmptyFetch.fetch "A" = .ok [] ∧
    (Spotim8_sync envAEmptyFetch false 1 stAStale).2.2 =
      .ok { checked := 1, updated := 1, tracksAdded := 0 } ∧
    rowsFor "A" (Spotim8_sync envAEmptyFetch false 1 stAStale).1.playlist_tracks =
      [{ playlist_id := "A", track_id := "t-old", position := 0 }] := by
  exact ⟨by decide, rfl, rfl, by decide⟩

/-- **C2 amended** Full replace on change, provided the run fetches at
least one row in total: for a collection `c` in the changed set of a
completed sync whose statistics report a non-zero `tracks_added`, the
persisted item rows for `c` are exactly the freshly fetched item set of
`c` — no residual stale rows, no duplicates.  (When the run fetches zero
rows overall, the guarded save is skipped and prior rows of changed
collections survive; see the counterexample.) -/
theorem sync_full_replace_on_change (env : SyncEnv) (force : Bool) (now : Nat)
    (st : SyncState)
    (hwf : ∀ p rows, env.fetch p = .ok rows → ∀ r ∈ rows, r.playlist_id = p)
    (hnodup : (env.listing.map Prod.fst).Nodup)
    (c : String) (hc : c ∈ changedOf st.snapshots env.listing force)
    (rcs : List TrackRow) (hfetch : env.fetch c = .ok rcs)
    (stats : SyncStats) (hok : (Spotim8_sync env force now st).2.2 = .ok stats)
    (hadded : stats.tracksAdded ≠ 0) :
    rowsFor c (Spotim8_sync env force now st).1.playlist_tracks = rcs := by
  have hne : changedOf st.snapshots env.listing force ≠ [] := by
    intro h
    rw [h] at hc
    exact absurd hc (List.not_mem_nil c)
  cases hfa : (fetchAll env (fetchOrder (changedOf st.snapshots env.listing force))).2 with
  | error e =>
    rw [Spotim8_sync_error env force now st e
      (fetchAll env (fetchOrder (changedOf st.snapshots env.listing force))).1
      hne (by rw [← hfa])] at hok
    exact absurd hok (by simp)
  | ok rows =>
    have hsync := Spotim8_sync_ok env force now st rows
      (fetchAll env (fetchOrder (changedOf st.snapshots env.listing force))).1
      hne (by rw [← hfa])
    rw [hsync] at hok
    have hstats : stats =
        { checked := env.listing.length,
          updated := (changedOf st.snapshots env.listing force).length,
          tracksAdded := rows.length } :=
      (Except.ok.inj hok).symm
    have hrows : rows.isEmpty = false := by
      cases rows with
      | nil =>
        rw [hstats] at hadded
        exact absurd rfl hadded
      | cons a l => rfl
    rw [hsync]
    simp only [hrows, Bool.false_eq_true, if_false]
    show ((ptBase force (changedOf st.snapshots env.listing force) st ++
        rows).filter (fun r => decide (r.playlist_id = c))) = rcs
    rw [List.filter_append, ptBase_filter_changed force _ st c hc, List.nil_append]
    exact fetchAll_snd_ok_filter_eq env hwf _
      (fetchOrder_nodup _ (changedOf_nodup _ _ _ hnodup)) c rcs rows
      ((mem_fetchOrder _ c).mpr hc) hfetch hfa

/-- Witness for the amended C2: playlist `A` changed and one fresh row is
fetched; the persisted rows of `A` become exactly that fresh set while
the row of unlisted `B` survives. -/
theorem sync_full_replace_on_change_witness :
    rowsFor "A" (Spotim8_sync envAOneRow false 1 stAB).1.playlist_tracks =
      [{ playlist_id := "A", track_id := "t-new", position := 0 }] :=
  sync_full_replace_on_change envAOneRow false 1 stAB envAOneRow_wf (by decide)
    "A" (by decide) [{ playlist_id := "A", track_id := "t-new", position := 0 }]
    (by rfl) { checked := 1, updated := 1, tracksAdded := 1 } (by rfl) (by decide)

/-! ### Claim C5: the resumable liked-songs fetch loses checkpointed pages

With 51 liked songs, an uninterrupted fresh run fetches two pages (50
items, then 1 item) and persists all 51 rows.  The run writes offset 50
to the checkpoint after page 1 (the first two conjuncts fix that page
length and the presence of a `next` link).  If the process dies right
after that checkpoint commit — the rows of page 1 exist only in memory —
the restarted run resumes at offset 50, fetches only the final page, and
because the parquet file was never written, persists just 1 row: the 50
rows of page 1 are permanently lost, so the merged result differs from
the uninterrupted run, contradicting both the resumability property and
the code comment on spotify_sync.py line 453 that assumes earlier pages
are already persisted. -/
theorem sync_liked_songs_interruption_loses_rows :
    (likedPage (List.range 51) 0).length = 50 ∧
    0 + 50 < (List.range 51).length ∧
    (sync_liked_songs (List.range 51)
        { checkpoint := none, parquet := none }).parquet =
      some ((List.range 51).map (PRow.mk FALLBACK_LIKED_ID)) ∧
    (sync_liked_songs (List.range 51)
        { checkpoint := some 50, parquet := none }).parquet =
      some (((List.range 51).drop 50).map (PRow.mk FALLBACK_LIKED_ID)) ∧
    (sync_liked_songs (List.range 51)
        { checkpoint := some 50, parquet := none }).parquet ≠
      (sync_liked_songs (List.range 51)
        { checkpoint := none, parquet := none }).parquet := by
  refine ⟨by decide, by decide, by decide, by decide, by decide⟩
